import Mathlib

/- Verification development for mbf-agent-wrapper.py (ModsBeforeFriday).

The file models, as a shallow embedding:
  * Python json.loads on the accumulated stdout content (inductive Json and
    jsonParse), restricted to integer numerals (the agent protocol carries
    integers, booleans, strings, arrays and objects; fractional and exponent
    numerals as well as NaN and Infinity are not modelled);
  * bytes.splitlines as used on every raw stdout chunk (splitlines);
  * Wrapper.log including the string-level conversion through
    LEVEL_CONVERTER and the suppression check level > self.log_level
    (logRun); ANSI colour codes in the printed prefixes are elided;
  * Wrapper.parse_response with every branch of its response-type dispatch,
    keeping the exact order of dictionary accesses, the log levels, and the
    state updates; indentation and colour formatting of printed text is
    simplified;
  * the read loop of Wrapper.send_payload, driven by an explicit trace of
    read1 results (ReadEvent), with the local accumulator combined_stdout,
    the stderr branch, and the bare return on a zero-byte read (loopRun).

Chunks are modelled as lists of characters; the utf-8 byte/str distinction
(and hence UnicodeDecodeError) is elided. -/

/-- Streams of the worker process visible to the read loop of send_payload. -/
inductive Src
  | stdout
  | stderr
  deriving DecidableEq, Repr

/-- Shorthand turning a string literal into the character-list form used throughout. -/
def s2c (s : String) : List Char := s.data

/-- Opening-brace character. -/
def lbr : Char := Char.ofNat 123

/-- Closing-brace character. -/
def rbr : Char := Char.ofNat 125

/-- Values produced by Python json.loads, with numerals restricted to integers. -/
inductive Json
  | null
  | bool (b : Bool)
  | num (n : Int)
  | str (s : List Char)
  | arr (elems : List Json)
  | obj (fields : List (List Char × Json))

/-- Whitespace characters of the JSON grammar (also those skipped by json.loads). -/
def isWsJ (c : Char) : Bool := c = ' ' || c = '\t' || c = '\n' || c = '\r'

/-- Drop leading JSON whitespace. -/
def skipWs : List Char → List Char
  | [] => []
  | c :: rest => if isWsJ c then skipWs rest else c :: rest

/-- Value of one hexadecimal digit, if the character is one. -/
def hexVal (c : Char) : Option Nat :=
  if '0' ≤ c ∧ c ≤ '9' then some (c.toNat - 48)
  else if 'a' ≤ c ∧ c ≤ 'f' then some (c.toNat - 87)
  else if 'A' ≤ c ∧ c ≤ 'F' then some (c.toNat - 55)
  else none

/-- Single-character JSON string escapes (the u-escape is handled separately). -/
def escChar (c : Char) : Option Char :=
  if c = '\"' then some '\"'
  else if c = '\\' then some '\\'
  else if c = '/' then some '/'
  else if c = 'n' then some '\n'
  else if c = 't' then some '\t'
  else if c = 'r' then some '\r'
  else if c = 'b' then some (Char.ofNat 8)
  else if c = 'f' then some (Char.ofNat 12)
  else none

/-- Body of a JSON string after the opening quote: returns the decoded content
and the input remaining after the closing quote.  Raw control characters are
rejected, as json.loads does in its default strict mode. -/
def parseStrBody : List Char → Option (List Char × List Char)
  | [] => none
  | c :: rest =>
    if c = '\"' then some ([], rest)
    else if c = '\\' then
      match rest with
      | [] => none
      | e :: rest2 =>
        if e = 'u' then
          match rest2 with
          | h1 :: h2 :: h3 :: h4 :: rest3 =>
            match hexVal h1, hexVal h2, hexVal h3, hexVal h4 with
            | some a, some b, some c3, some d =>
              match parseStrBody rest3 with
              | some (s, rem) =>
                some (Char.ofNat (((a * 16 + b) * 16 + c3) * 16 + d) :: s, rem)
              | none => none
            | _, _, _, _ => none
          | _ => none
        else
          match escChar e with
          | some ec =>
            match parseStrBody rest2 with
            | some (s, rem) => some (ec :: s, rem)
            | none => none
          | none => none
    else if c.toNat < 32 then none
    else
      match parseStrBody rest with
      | some (s, rem) => some (c :: s, rem)
      | none => none

/-- Unsigned integer part of a JSON numeral: 0, or a nonzero digit followed by
digits (the grammar rejects leading zeros). -/
def parseNumCore : List Char → Option (Nat × List Char)
  | [] => none
  | c :: rest =>
    if c = '0' then some (0, rest)
    else if c.isDigit then
      let d := rest.takeWhile Char.isDigit
      let r := rest.dropWhile Char.isDigit
      some ((c :: d).foldl (fun a ch => a * 10 + (ch.toNat - 48)) 0, r)
    else none

/-- JSON numeral token, integer-valued, with optional leading minus sign. -/
def parseNumTok : List Char → Option (Json × List Char)
  | [] => none
  | c :: rest =>
    if c = '-' then
      match parseNumCore rest with
      | some (n, rem) => some (Json.num (-(n : Int)), rem)
      | none => none
    else
      match parseNumCore (c :: rest) with
      | some (n, rem) => some (Json.num (n : Int), rem)
      | none => none

mutual

/-- Parse one JSON value from input whose leading whitespace has been skipped.
The fuel argument bounds the recursion depth; jsonParse supplies more fuel than
any input of its length can consume. -/
def parseVal : Nat → List Char → Option (Json × List Char)
  | 0, _ => none
  | _ + 1, [] => none
  | fuel + 1, c :: rest =>
    if c = lbr then
      match skipWs rest with
      | [] => none
      | d :: s2 =>
        if d = rbr then some (Json.obj [], s2)
        else
          match parseMembersJ fuel (d :: s2) with
          | some (fs, rem) => some (Json.obj fs, rem)
          | none => none
    else if c = '[' then
      match skipWs rest with
      | [] => none
      | d :: s2 =>
        if d = ']' then some (Json.arr [], s2)
        else
          match parseElemsJ fuel (d :: s2) with
          | some (vs, rem) => some (Json.arr vs, rem)
          | none => none
    else if c = '\"' then
      match parseStrBody rest with
      | some (s, rem) => some (Json.str s, rem)
      | none => none
    else if c = 't' then
      match rest with
      | 'r' :: 'u' :: 'e' :: r2 => some (Json.bool true, r2)
      | _ => none
    else if c = 'f' then
      match rest with
      | 'a' :: 'l' :: 's' :: 'e' :: r2 => some (Json.bool false, r2)
      | _ => none
    else if c = 'n' then
      match rest with
      | 'u' :: 'l' :: 'l' :: r2 => some (Json.null, r2)
      | _ => none
    else parseNumTok (c :: rest)

/-- Members of a JSON object after its opening brace (first member not yet read). -/
def parseMembersJ : Nat → List Char → Option (List (List Char × Json) × List Char)
  | 0, _ => none
  | fuel + 1, input =>
    match input with
    | [] => none
    | c :: rest =>
      if c = '\"' then
        match parseStrBody rest with
        | none => none
        | some (k, r1) =>
          match skipWs r1 with
          | [] => none
          | d :: r2 =>
            if d = ':' then
              match parseVal fuel (skipWs r2) with
              | none => none
              | some (v, r3) =>
                match skipWs r3 with
                | [] => none
                | e :: r4 =>
                  if e = ',' then
                    match parseMembersJ fuel (skipWs r4) with
                    | some (fs, rem) => some ((k, v) :: fs, rem)
                    | none => none
                  else if e = rbr then some ([(k, v)], r4)
                  else none
            else none
      else none

/-- Elements of a JSON array after its opening bracket (first element not yet read). -/
def parseElemsJ : Nat → List Char → Option (List Json × List Char)
  | 0, _ => none
  | fuel + 1, input =>
    match parseVal fuel input with
    | none => none
    | some (v, r1) =>
      match skipWs r1 with
      | [] => none
      | e :: r2 =>
        if e = ',' then
          match parseElemsJ fuel (skipWs r2) with
          | some (vs, rem) => some (v :: vs, rem)
          | none => none
        else if e = ']' then some ([v], r2)
        else none

end

/-- Model of json.loads on the accumulated content: one complete JSON document,
possibly surrounded by whitespace; anything else (including trailing data)
fails, exactly as json.loads raises JSONDecodeError. -/
def jsonParse (s : List Char) : Option Json :=
  match parseVal (2 * s.length + 2) (skipWs s) with
  | some (v, rem) => if skipWs rem = [] then some v else none
  | none => none

/-- Model of bytes.splitlines applied to each raw stdout chunk: split at \n,
\r or \r\n, terminators dropped, no trailing empty line; cur holds the current
line reversed. -/
def splitlinesGo : List Char → List Char → List (List Char)
  | [], cur => [cur.reverse]
  | [c], cur =>
    if c = '\r' ∨ c = '\n' then [cur.reverse] else [(c :: cur).reverse]
  | c :: d :: rest, cur =>
    if c = '\r' then
      if d = '\n' then
        cur.reverse :: (if rest.isEmpty then [] else splitlinesGo rest [])
      else cur.reverse :: splitlinesGo (d :: rest) []
    else if c = '\n' then cur.reverse :: splitlinesGo (d :: rest) []
    else splitlinesGo (d :: rest) (c :: cur)

/-- Python bytes.splitlines: the empty chunk yields no lines at all. -/
def splitlines (cs : List Char) : List (List Char) :=
  match cs with
  | [] => []
  | c :: rest => splitlinesGo (c :: rest) []

/-- Log level constant TRACE of the wrapper. -/
def TRACE : Int := 4

/-- Log level constant DEBUG of the wrapper. -/
def DEBUG : Int := 3

/-- Log level constant INFO of the wrapper. -/
def INFO : Int := 2

/-- Log level constant WARN of the wrapper. -/
def WARN : Int := 1

/-- Log level constant ERROR of the wrapper. -/
def ERROR : Int := 0

/-- Table LEVEL_CONVERTER: level names accepted by Wrapper.log. -/
def levelConv (s : List Char) : Option Int :=
  if s = s2c "trace" then some TRACE
  else if s = s2c "debug" then some DEBUG
  else if s = s2c "info" then some INFO
  else if s = s2c "warn" then some WARN
  else if s = s2c "error" then some ERROR
  else none

/-- Printed prefix chosen by the if/elif chain in Wrapper.log (colour codes
elided; any level other than the five constants gets no prefix and goes to
the wrapper's stdout). -/
def pfxFor (n : Int) : List Char :=
  if n = TRACE then s2c "[TRACE] "
  else if n = DEBUG then s2c "[DEBUG] "
  else if n = INFO then s2c "[INFO]  "
  else if n = WARN then s2c "[WARN]  "
  else if n = ERROR then s2c "[ERROR] "
  else []

/-- Simplified Python str() of a decoded JSON value as interpolated into the
wrapper's f-strings (container rendering abbreviated). -/
def pyStr : Json → List Char
  | .null => s2c "None"
  | .bool true => s2c "True"
  | .bool false => s2c "False"
  | .num n => (toString n).data
  | .str s => s
  | .arr _ => s2c "[...]"
  | .obj _ => s2c "\x7b...\x7d"

/-- Record of one print call made by Wrapper.log: the wrapper-process stream
it goes to and the printed text. -/
structure Printed where
  strm : Src
  text : List Char

/-- Python exceptions the modelled code can raise. -/
inductive PyErr
  | keyError (k : List Char)
  | typeError
  deriving DecidableEq

/-- Value passed as the level argument of Wrapper.log: one of the int
constants, or a value taken from a decoded message. -/
inductive PyLevel
  | i (n : Int)
  | j (v : Json)

/-- Printing part of Wrapper.log once the level is an integer: nothing is
printed when level > log_level; otherwise one line goes to the wrapper's
stderr for ERROR and to its stdout for every other level. -/
def logOut (logLevel : Int) (n : Int) (text : Json) : List Printed :=
  if n > logLevel then []
  else [⟨if n = ERROR then Src.stderr else Src.stdout, pfxFor n ++ pyStr text⟩]

/-- Wrapper.log: a string level is first converted through LEVEL_CONVERTER
after lowercasing (KeyError on an unknown name); a bool level is an int in
Python; any other non-numeric level makes the comparison with log_level raise
TypeError. -/
def logRun (logLevel : Int) (level : PyLevel) (text : Json) : Except PyErr (List Printed) :=
  match level with
  | .i n => .ok (logOut logLevel n text)
  | .j (.str s) =>
    match levelConv (s.map Char.toLower) with
    | some n => .ok (logOut logLevel n text)
    | none => .error (.keyError (s.map Char.toLower))
  | .j (.num n) => .ok (logOut logLevel n text)
  | .j (.bool b) => .ok (logOut logLevel (if b then 1 else 0) text)
  | .j _ => .error .typeError

/-- Fields of the Wrapper object touched by parse_response, plus the log
level computed in Wrapper.init as INFO + verbosity - quiteness. -/
structure WrapperState where
  logLevel : Int
  modStatus : Option Json := none
  mods : Option Json := none
  modSyncResult : Option Json := none
  patched : Option Json := none
  importResult : Option Json := none
  fixedPlayerData : Option Json := none
  downgradedManifest : Option Json := none

/-- Int-level self.log call on a text built by the wrapper (cannot raise). -/
def wlog (w : WrapperState) (n : Int) (t : List Char) : List Printed :=
  logOut w.logLevel n (Json.str t)

/-- Lookup in the field list of a decoded object; later duplicates win, as in
the dict built by json.loads. -/
def lookupJ : List (List Char × Json) → List Char → Option Json
  | [], _ => none
  | (k2, v) :: rest, k =>
    match lookupJ rest k with
    | some v2 => some v2
    | none => if k2 = k then some v else none

/-- Python response[key]: KeyError when the key is absent; TypeError when the
subscripted value is not an object (a string subscript fails on every other
decoded value). -/
def getK : Json → List Char → Except PyErr Json
  | .obj fs, k =>
    match lookupJ fs k with
    | some v => .ok v
    | none => .error (.keyError k)
  | _, _ => .error .typeError

/-- Python `key in response` on a decoded value. -/
def hasK (j : Json) (k : List Char) : Bool :=
  match j with
  | .obj fs => (lookupJ fs k).isSome
  | _ => false

/-- Removal of every field named k (the dict built by json.loads holds each
key once, so this models `del response[k]`). -/
def delFields : List (List Char × Json) → List Char → List (List Char × Json)
  | [], _ => []
  | (k2, v) :: rest, k =>
    if k2 = k then delFields rest k else (k2, v) :: delFields rest k

/-- Python `del response[key]` on a decoded object. -/
def delK : Json → List Char → Json
  | .obj fs, k => .obj (delFields fs k)
  | j, _ => j

/-- Python iteration over a decoded value as in `for mod in response[...]`:
lists yield their elements, strings their characters, dicts their keys; other
values raise TypeError. -/
def asList : Json → Except PyErr (List Json)
  | .arr xs => .ok xs
  | .str s => .ok (s.map (fun c => Json.str [c]))
  | .obj fs => .ok (fs.map (fun p => Json.str p.1))
  | _ => .error .typeError

/-- Python truthiness of a decoded value. -/
def pyTruthy : Json → Bool
  | .null => false
  | .bool b => b
  | .num n => n != 0
  | .str s => !s.isEmpty
  | .arr xs => !xs.isEmpty
  | .obj fs => !fs.isEmpty

/-- Wrapper.color_bool applied to a decoded value: the xor with flipped only
selects the colour (elided); the text is the Python str of the value; the xor
raises TypeError when the value supports no xor with a bool. -/
def colorBool (j : Json) (flipped : Bool) : Except PyErr (List Char) :=
  match j, flipped with
  | .bool b, _ => .ok (pyStr (.bool b))
  | .num n, _ => .ok (pyStr (.num n))
  | _, _ => .error .typeError

/-- Equality test of a decoded value against a Python string literal. -/
def jEqS (j : Json) (s : String) : Bool :=
  match j with
  | .str t => t == s.data
  | _ => false

/-- Wrapper.log_mod: the per-mod block of prints, with each dictionary access
in source order (indentation elided). -/
def logModM (w : WrapperState) (m : Json) : Except PyErr (List Printed) := do
  let nm ← getK m (s2c "name")
  let p1 := wlog w INFO (pyStr nm)
  let en ← getK m (s2c "is_enabled")
  let ent := if pyTruthy en then s2c "True" else s2c "False"
  let p2 := wlog w INFO (s2c "Enabled: " ++ ent)
  let ic ← getK m (s2c "is_core")
  let p3 := wlog w DEBUG (s2c "Core Mod: " ++ pyStr ic)
  let ver ← getK m (s2c "version")
  let p4 := wlog w INFO (s2c "Version: " ++ pyStr ver)
  let idv ← getK m (s2c "id")
  let p5 := wlog w INFO (s2c "ID: " ++ pyStr idv)
  let gv ← getK m (s2c "game_version")
  let p6 := wlog w DEBUG (s2c "Game Version: " ++ pyStr gv)
  let de ← getK m (s2c "description")
  let p7 := wlog w INFO (s2c "Description: " ++ pyStr de ++ s2c "\n")
  return p1 ++ p2 ++ p3 ++ p4 ++ p5 ++ p6 ++ p7

/-- Iteration calling log_mod on each decoded mod. -/
def logMods (w : WrapperState) : List Json → Except PyErr (List Printed)
  | [] => .ok []
  | m :: rest => do
    let p ← logModM w m
    let ps ← logMods w rest
    return p ++ ps

/-- ModStatus branch of parse_response (source lines 261-299): state update,
guarded app_info block, installed-mods block, guarded core_mods block, then
the two accesses that sit outside any guard: response[core_mods]
[is_awaiting_diff] at line 295 and response[app_info][obb_present] at line
298.  Repeated subscripts of the same pure value are bound once. -/
def modStatusBranch (w : WrapperState) (pre : List Printed) (r : Json) :
    Except PyErr (WrapperState × List Printed) := do
  let w2 := { w with modStatus := some r }
  let p0 := wlog w2 INFO (s2c "Mod Status")
  let pAi ←
    (if hasK r (s2c "app_info") then do
      let p1 := wlog w2 INFO (s2c "App Info")
      let ai ← getK r (s2c "app_info")
      let li ← getK ai (s2c "loader_installed")
      let p2 := wlog w2 INFO (s2c "Loader Installed: " ++ pyStr li)
      let ob ← getK ai (s2c "obb_present")
      let cb ← colorBool ob false
      let p3 := wlog w2 INFO (s2c "OBB Present: " ++ cb)
      let vv ← getK ai (s2c "version")
      let p4 := wlog w2 INFO (s2c "Version: " ++ pyStr vv ++ s2c "\n")
      let mx ← getK ai (s2c "manifest_xml")
      let p5 := wlog w2 TRACE (s2c "Manifest XML: " ++ pyStr mx ++ s2c "\n")
      return p1 ++ p2 ++ p3 ++ p4 ++ p5
    else return ([] : List Printed))
  let p6 := wlog w2 INFO (s2c "Installed Mods")
  let ims ← getK r (s2c "installed_mods")
  let iml ← asList ims
  let p7 ← logMods w2 iml
  let pCm ←
    (if hasK r (s2c "core_mods") then do
      let p8 := wlog w2 DEBUG (s2c "Core Mods")
      let cm ← getK r (s2c "core_mods")
      let cs ← getK cm (s2c "core_mod_install_status")
      let p9 := wlog w2 DEBUG (s2c "Core Mod Install Status: " ++ pyStr cs)
      let p10 := wlog w2 DEBUG (s2c "Supported Versions")
      let sv ← getK cm (s2c "supported_versions")
      let svl ← asList sv
      let p11 := (svl.map (fun v => wlog w2 DEBUG (pyStr v))).flatten
      let p12 := wlog w2 DEBUG (s2c "Downgrade Versions")
      let dv ← getK cm (s2c "downgrade_versions")
      let dvl ← asList dv
      let p13 := (dvl.map (fun v => wlog w2 DEBUG (pyStr v))).flatten
      return p8 ++ p9 ++ p10 ++ p11 ++ p12 ++ p13
    else return ([] : List Printed))
  let cm2 ← getK r (s2c "core_mods")
  let iad ← getK cm2 (s2c "is_awaiting_diff")
  let cb2 ← colorBool iad true
  let p14 := wlog w2 DEBUG (s2c "Is Awaiting Diff? " ++ cb2)
  let ai3 ← getK r (s2c "app_info")
  let ob2 ← getK ai3 (s2c "obb_present")
  let p15 :=
    if !pyTruthy ob2 then
      wlog w2 WARN (s2c "OBB file not detected! BeatSaber may not start!")
    else []
  return (w2, pre ++ p0 ++ pAi ++ p6 ++ p7 ++ pCm ++ p14 ++ p15)

/-- Mods branch of parse_response (source lines 301-309). -/
def modsBranch (w : WrapperState) (pre : List Printed) (r : Json) :
    Except PyErr (WrapperState × List Printed) := do
  let w2 := { w with mods := some r }
  let p0 := wlog w2 INFO (s2c "Mods")
  let p1 := wlog w2 INFO (s2c "Installed Mods")
  let ims ← getK r (s2c "installed_mods")
  let iml ← asList ims
  let p2 ← logMods w2 iml
  return (w2, pre ++ p0 ++ p1 ++ p2)

/-- ModSyncResult branch of parse_response (source lines 311-325). -/
def modSyncBranch (w : WrapperState) (pre : List Printed) (r : Json) :
    Except PyErr (WrapperState × List Printed) := do
  let w2 := { w with modSyncResult := some r }
  let p0 := wlog w2 INFO (s2c "Mod Sync Result")
  let p1 := wlog w2 INFO (s2c "Installed Mods")
  let ims ← getK r (s2c "installed_mods")
  let iml ← asList ims
  let p2 ← logMods w2 iml
  let f ← getK r (s2c "failures")
  if !pyTruthy f then return (w2, pre ++ p0 ++ p1 ++ p2)
  else
    let p3 := wlog w2 ERROR (s2c "Failures: " ++ pyStr f)
    return (w2, pre ++ p0 ++ p1 ++ p2 ++ p3)

/-- Patched branch of parse_response (source lines 327-339). -/
def patchedBranch (w : WrapperState) (pre : List Printed) (r : Json) :
    Except PyErr (WrapperState × List Printed) := do
  let w2 := { w with patched := some r }
  let p0 := wlog w2 INFO (s2c "Patched")
  let p1 := wlog w2 INFO (s2c "Installed Mods")
  let ims ← getK r (s2c "installed_mods")
  let iml ← asList ims
  let p2 ← logMods w2 iml
  let d ← getK r (s2c "did_remove_dlc")
  let p3 :=
    if pyTruthy d then
      wlog w2 WARN (s2c "MBF (temporarily) deleted installed DLC while downgrading your game. To get them back, FIRST restart your headset, THEN download the DLC in-game")
    else []
  return (w2, pre ++ p0 ++ p1 ++ p2 ++ p3)

/-- ImportResult branch of parse_response (source lines 340-375). -/
def importResultBranch (w : WrapperState) (pre : List Printed) (r : Json) :
    Except PyErr (WrapperState × List Printed) := do
  let w2 := { w with importResult := some r }
  let p0 := wlog w2 INFO (s2c "Import Result")
  let res ← getK r (s2c "result")
  let it ← getK res (s2c "type")
  let branchData ←
    (if jEqS it "ImportedMod" then do
      let ims ← getK res (s2c "installed_mods")
      let iid ← getK res (s2c "imported_id")
      return (s2c "Mod", some ims, (none : Option Json), some iid)
    else if jEqS it "ImportedFileCopy" then do
      let ct ← getK res (s2c "copied_to")
      let mid ← getK res (s2c "mod_id")
      return (s2c "File Copy", (none : Option Json), some ct, some mid)
    else if jEqS it "ImportedSong" then
      return (s2c "Song", (none : Option Json), (none : Option Json), (none : Option Json))
    else if jEqS it "NonQuestModDetected" then
      return (s2c "NON-QUEST MOD", (none : Option Json), (none : Option Json), (none : Option Json))
    else
      return (pyStr it, (none : Option Json), (none : Option Json), (none : Option Json)))
  let p1 := wlog w2 INFO (s2c "Type: " ++ branchData.1)
  let p2 ←
    (match branchData.2.1 with
    | some v =>
      if pyTruthy v then do
        let ph := wlog w2 INFO (s2c "Installed Mods")
        let l ← asList v
        let pm ← logMods w2 l
        return ph ++ pm
      else return ([] : List Printed)
    | none => return ([] : List Printed))
  let p3 :=
    match branchData.2.2.1 with
    | some v => if pyTruthy v then wlog w2 DEBUG (s2c "Copied To: " ++ pyStr v) else []
    | none => []
  let p4 :=
    match branchData.2.2.2 with
    | some v => if pyTruthy v then wlog w2 INFO (s2c "ID: " ++ pyStr v) else []
    | none => []
  return (w2, pre ++ p0 ++ p1 ++ p2 ++ p3 ++ p4)

/-- FixedPlayerData branch of parse_response (source lines 377-381). -/
def fixedPlayerDataBranch (w : WrapperState) (pre : List Printed) (r : Json) :
    Except PyErr (WrapperState × List Printed) := do
  let w2 := { w with fixedPlayerData := some r }
  let p0 := wlog w2 INFO (s2c "Fixed Player Data")
  let e ← getK r (s2c "existed")
  let cb ← colorBool e false
  let p1 := wlog w2 INFO (s2c "Existed: " ++ cb)
  return (w2, pre ++ p0 ++ p1)

/-- DowngradedManifest branch of parse_response (source lines 382-384). -/
def downgradedManifestBranch (w : WrapperState) (pre : List Printed) (r : Json) :
    Except PyErr (WrapperState × List Printed) := do
  let p0 := wlog w INFO (s2c "Received Downgraded Manifest")
  let m ← getK r (s2c "manifest_xml")
  let w2 := { w with downgradedManifest := some m }
  return (w2, pre ++ p0)

/-- Wrapper.parse_response: read and delete the type discriminator, handle
LogMsg, print the blank separator line for every other type when
INFO <= log_level (source line 258), and dispatch on the type string with the
fallback that logs an unimplemented response type. -/
def parseResponse (w : WrapperState) (resp : Json) :
    Except PyErr (WrapperState × List Printed) := do
  let rt ← getK resp (s2c "type")
  let r := delK resp (s2c "type")
  if jEqS rt "LogMsg" then do
    let msg ← getK r (s2c "message")
    let lv ← getK r (s2c "level")
    let pr ← logRun w.logLevel (.j lv) msg
    return (w, pr)
  else
    let blank : List Printed := if INFO ≤ w.logLevel then [⟨Src.stdout, []⟩] else []
    if jEqS rt "ModStatus" then modStatusBranch w blank r
    else if jEqS rt "Mods" then modsBranch w blank r
    else if jEqS rt "ModSyncResult" then modSyncBranch w blank r
    else if jEqS rt "Patched" then patchedBranch w blank r
    else if jEqS rt "ImportResult" then importResultBranch w blank r
    else if jEqS rt "FixedPlayerData" then fixedPlayerDataBranch w blank r
    else if jEqS rt "DowngradedManifest" then downgradedManifestBranch w blank r
    else
      let p1 := wlog w ERROR (s2c "Response type " ++ pyStr rt ++ s2c " has not been implemented!")
      let p2 := wlog w DEBUG (s2c "Respone was " ++ pyStr r)
      return (w, blank ++ p1 ++ p2)

/-- Result of one key.fileobj.read1() call in the loop: the stream it came
from and the bytes obtained (empty means the stream reported closure). -/
inductive ReadEvent
  | read (src : Src) (data : List Char)

/-- State of one send_payload run: the Wrapper fields, the local accumulator
combined_stdout, the parse_response calls made so far (in order, with their
argument), the raw stderr chunks passed to self.log, and everything printed.
The two Bool fields stand for the subprocess cleanup effects available to the
code (Popen.wait / closing the two pipes): they start False, and, since the
body of send_payload contains no call to either, no step of the model ever
sets them. -/
structure LoopState where
  wst : WrapperState
  acc : List Char
  dispatched : List Json
  errCalls : List (List Char)
  prints : List Printed
  procWaited : Bool
  streamsClosed : Bool

/-- State at the top of the read loop: combined_stdout = bytes() and nothing
dispatched, logged or printed yet (source line 230). -/
def initLoopState (lvl : Int) : LoopState :=
  { wst := { logLevel := lvl }, acc := [], dispatched := [], errCalls := [],
    prints := [], procWaited := false, streamsClosed := false }

/-- Per-line body of the stdout branch (source lines 239-246): append the
line to combined_stdout, run json.loads on the whole accumulator, call
parse_response on success and only then reset the accumulator, silently keep
the accumulator on JSONDecodeError; an exception raised by parse_response
itself is not caught and aborts everything. -/
def procLinesS : List (List Char) → LoopState → Except (PyErr × LoopState) LoopState
  | [], s => .ok s
  | line :: rest, s =>
    let acc2 := s.acc ++ line
    match jsonParse acc2 with
    | none => procLinesS rest { s with acc := acc2 }
    | some j =>
      match parseResponse s.wst j with
      | .ok (w2, pr) =>
        procLinesS rest
          { s with wst := w2, acc := [], dispatched := s.dispatched ++ [j],
                   prints := s.prints ++ pr }
      | .error e =>
        .error (e, { s with acc := acc2, dispatched := s.dispatched ++ [j] })

/-- Outcome of driving the read loop over a finite trace of read results:
returned - the bare return on a zero-byte read was executed (carrying the
events after it, which the function never reads); raised - an uncaught
exception from parse_response propagated out of send_payload; blocked - the
trace is exhausted and the loop is still waiting in selector.select(). -/
inductive LoopOutcome
  | returned (fin : LoopState) (unread : List ReadEvent)
  | raised (e : PyErr) (fin : LoopState) (unread : List ReadEvent)
  | blocked (fin : LoopState)

/-- Read loop of send_payload (source lines 231-248): each read result is
checked for emptiness first (bare return), stdout data goes through
splitlines into the accumulate-and-parse step, stderr data is passed verbatim
to self.log at level ERROR and the loop continues. -/
def loopRun : List ReadEvent → LoopState → LoopOutcome
  | [], s => .blocked s
  | .read src data :: rest, s =>
    if data = [] then .returned s rest
    else
      match src with
      | .stdout =>
        match procLinesS (splitlines data) s with
        | .ok s2 => loopRun rest s2
        | .error (e, s2) => .raised e s2 rest
      | .stderr =>
        match logRun s.wst.logLevel (.i ERROR) (Json.str data) with
        | .ok pr =>
          loopRun rest { s with errCalls := s.errCalls ++ [data], prints := s.prints ++ pr }
        | .error e => .raised e s rest

/-- Wrapper.send_payload at a given log level: the request side (lines
219-224) serialises the payload once before the loop and never writes again;
the behaviour of the read loop depends only on the trace of read results, and
combined_stdout starts empty. -/
def sendPayloadModel (lvl : Int) (trace : List ReadEvent) : LoopOutcome :=
  loopRun trace (initLoopState lvl)

/-- Payload built at source line 219: the dict-union of the type discriminator
with the keyword arguments (the right operand of the dict union wins, which
lookupJ reproduces by letting later fields win). -/
def buildPayload (ptype : List Char) (kwargs : List (List Char × Json)) : Json :=
  Json.obj ((s2c "type", Json.str ptype) :: kwargs)

/-- Pure view of the decoder inside the stdout branch: the accumulator and the
sequence of complete messages decoded from a list of lines, ignoring what
dispatching each message does. -/
def procLines : List Char → List (List Char) → List Char × List Json
  | acc, [] => (acc, [])
  | acc, line :: rest =>
    let acc2 := acc ++ line
    match jsonParse acc2 with
    | some j =>
      let p := procLines [] rest
      (p.1, j :: p.2)
    | none => procLines acc2 rest

/-- Feeding a sequence of raw stdout chunks through the decoder. -/
def decodeChunks : List Char → List (List Char) → List Char × List Json
  | acc, [] => (acc, [])
  | acc, ch :: rest =>
    let p1 := procLines acc (splitlines ch)
    let p2 := decodeChunks p1.1 rest
    (p2.1, p1.2 ++ p2.2)

/-- Check whether a trace contains a zero-byte read. -/
def hasEmptyRead (t : List ReadEvent) : Bool :=
  t.any (fun e => match e with | .read _ d => d.isEmpty)

/-- Check whether the loop executed its return statement. -/
def isReturnedO : LoopOutcome → Bool
  | .returned _ _ => true
  | _ => false

/-- Check whether the loop is still waiting for more data. -/
def isBlockedO : LoopOutcome → Bool
  | .blocked _ => true
  | _ => false

/-- Final loop state carried by an outcome. -/
def finSt : LoopOutcome → LoopState
  | .returned s _ => s
  | .raised _ s _ => s
  | .blocked s => s

/-- Empty accumulated content never parses (json.loads of an empty string raises). -/
theorem jsonParse_nil : jsonParse [] = none := rfl

/-- Closing brace is not JSON whitespace. -/
theorem isWsJ_rbr : isWsJ rbr = false := by decide

/-- Content headed by a closing brace keeps its head through whitespace skipping. -/
theorem skipWs_rbr (t : List Char) : skipWs (rbr :: t) = rbr :: t := by
  simp [skipWs, isWsJ_rbr]

/-- No JSON value starts with a closing brace, whatever follows. -/
theorem parseVal_rbr (fuel : Nat) (t : List Char) : parseVal fuel (rbr :: t) = none := by
  cases fuel with
  | zero => rfl
  | succ n =>
    have h1 : ¬ rbr = lbr := by decide
    have h2 : ¬ rbr = '[' := by decide
    have h3 : ¬ rbr = '\"' := by decide
    have h4 : ¬ rbr = 't' := by decide
    have h5 : ¬ rbr = 'f' := by decide
    have h6 : ¬ rbr = 'n' := by decide
    have h7 : ¬ rbr = '-' := by decide
    have h8 : ¬ rbr = '0' := by decide
    have h9 : rbr.isDigit = false := by decide
    simp [parseVal, h1, h2, h3, h4, h5, h6, parseNumTok, parseNumCore, h7, h8, h9]

/-- Accumulated content headed by a closing brace can never become valid: every
json.loads attempt on it fails, no matter what is appended. -/
theorem jsonParse_rbr (t : List Char) : jsonParse (rbr :: t) = none := by
  simp [jsonParse, skipWs_rbr, parseVal_rbr]

/-- Chunks with no line-break characters are kept whole by splitlinesGo. -/
theorem splitlinesGo_no_break (cs : List Char) :
    (∀ c ∈ cs, c ≠ '\n' ∧ c ≠ '\r') →
    ∀ cur, splitlinesGo cs cur = [cur.reverse ++ cs] := by
  induction cs with
  | nil => intro _ cur; simp [splitlinesGo]
  | cons c cs2 ih =>
    intro h cur
    have hc := h c (by simp)
    cases cs2 with
    | nil =>
      simp [splitlinesGo, hc.1, hc.2]
    | cons d rest =>
      have hrec := ih (fun x hx => h x (by simp [hx])) (c :: cur)
      simp [splitlinesGo, hc.1, hc.2, hrec]

/-- Python splitlines of a nonempty chunk with no line breaks is that chunk. -/
theorem splitlines_no_break (cs : List Char) (hne : cs ≠ [])
    (h : ∀ c ∈ cs, c ≠ '\n' ∧ c ≠ '\r') : splitlines cs = [cs] := by
  cases cs with
  | nil => exact absurd rfl hne
  | cons c rest =>
    simp [splitlines]
    have := splitlinesGo_no_break (c :: rest) h []
    simpa using this

/-- Processing break-free content, then a newline, then a nonempty tail:
splitlinesGo emits the first line and continues on the tail. -/
theorem splitlinesGo_append_nl (m1 : List Char) :
    (∀ c ∈ m1, c ≠ '\n' ∧ c ≠ '\r') →
    ∀ (m2 : List Char), m2 ≠ [] →
    ∀ cur, splitlinesGo (m1 ++ '\n' :: m2) cur = (cur.reverse ++ m1) :: splitlinesGo m2 [] := by
  induction m1 with
  | nil =>
    intro _ m2 hne cur
    cases m2 with
    | nil => exact absurd rfl hne
    | cons d rest => simp [splitlinesGo]
  | cons a m1t ih =>
    intro h m2 hne cur
    have ha := h a (by simp)
    have hlist : a :: m1t ++ '\n' :: m2 = a :: (m1t ++ '\n' :: m2) := by simp
    cases hmt : m1t ++ '\n' :: m2 with
    | nil => simp at hmt
    | cons e rest2 =>
      have hrec := ih (fun x hx => h x (by simp [hx])) m2 hne (a :: cur)
      rw [hmt] at hrec
      calc splitlinesGo (a :: m1t ++ '\n' :: m2) cur
          = splitlinesGo (a :: e :: rest2) cur := by rw [hlist, hmt]
        _ = splitlinesGo (e :: rest2) (a :: cur) := by
            simp [splitlinesGo, ha.1, ha.2]
        _ = ((a :: cur).reverse ++ m1t) :: splitlinesGo m2 [] := hrec
        _ = (cur.reverse ++ a :: m1t) :: splitlinesGo m2 [] := by simp

/-- Python splitlines of two break-free pieces joined by a newline. -/
theorem splitlines_pair (m1 m2 : List Char) (h1 : ∀ c ∈ m1, c ≠ '\n' ∧ c ≠ '\r')
    (hne2 : m2 ≠ []) (h2 : ∀ c ∈ m2, c ≠ '\n' ∧ c ≠ '\r') :
    splitlines (m1 ++ '\n' :: m2) = [m1, m2] := by
  have hgo := splitlinesGo_append_nl m1 h1 m2 hne2 []
  have hgo2 := splitlinesGo_no_break m2 h2 []
  cases m1 with
  | nil =>
    cases m2 with
    | nil => exact absurd rfl hne2
    | cons d rest =>
      simp only [List.nil_append]
      simp [splitlines] at hgo ⊢
      rw [hgo, hgo2]
      simp
  | cons a m1t =>
    simp only [List.cons_append]
    simp [splitlines]
    rw [show a :: (m1t ++ '\n' :: m2) = (a :: m1t) ++ '\n' :: m2 by simp, hgo, hgo2]
    simp

/-- Decoding a line list whose combined parse fails leaves the accumulator
appended and decodes nothing. -/
theorem procLines_single_fail (acc line : List Char)
    (h : jsonParse (acc ++ line) = none) :
    procLines acc [line] = (acc ++ line, []) := by
  simp [procLines, h]

/-- Decoding a line whose combined parse succeeds resets the accumulator and
yields exactly that message. -/
theorem procLines_single_ok (acc line : List Char) (j : Json)
    (h : jsonParse (acc ++ line) = some j) :
    procLines acc [line] = ([], [j]) := by
  simp [procLines, h]

/-- The accumulate-and-parse step on the line list of the stdout branch keeps
the whole Wrapper state and only grows the accumulator while every parse
attempt fails on content headed by a closing brace. -/
theorem procLinesS_rbr (lines : List (List Char)) :
    ∀ (s : LoopState) (t : List Char), s.acc = rbr :: t →
    procLinesS lines s = .ok { s with acc := rbr :: (t ++ lines.flatten) } := by
  induction lines with
  | nil => intro s t h; simp [procLinesS, ← h]
  | cons line rest ih =>
    intro s t h
    have hacc : s.acc ++ line = rbr :: (t ++ line) := by simp [h]
    have hparse : jsonParse (s.acc ++ line) = none := by rw [hacc]; exact jsonParse_rbr _
    have hrec := ih { s with acc := s.acc ++ line } (t ++ line) hacc
    simp [procLinesS, hparse, hrec]

/-- Reads of nonempty stdout chunks on top of an accumulator headed by a
closing brace leave the loop blocked, with nothing dispatched, nothing
raised, and the still-growing accumulator intact. -/
theorem loopRun_stdout_rbr (chunks : List (List Char)) :
    (∀ ch ∈ chunks, ch ≠ []) →
    ∀ (s : LoopState) (t : List Char), s.acc = rbr :: t →
    ∃ t2, loopRun (chunks.map (ReadEvent.read Src.stdout)) s =
      .blocked { s with acc := rbr :: t2 } := by
  induction chunks with
  | nil =>
    intro _ s t h
    refine ⟨t, ?_⟩
    simp [loopRun, ← h]
  | cons ch rest ih =>
    intro hne s t h
    have hch : ch ≠ [] := hne ch (by simp)
    have hstep := procLinesS_rbr (splitlines ch) s t h
    obtain ⟨t2, hrec⟩ := ih (fun x hx => hne x (by simp [hx]))
      { s with acc := rbr :: (t ++ (splitlines ch).flatten) }
      (t ++ (splitlines ch).flatten) rfl
    refine ⟨t2, ?_⟩
    simp [loopRun, hch, hstep]
    simpa using hrec


/-- A loop outcome is the bare return only when the trace contains a zero-byte read. -/
theorem loopRun_returned_hasEmpty (trace : List ReadEvent) :
    ∀ s, isReturnedO (loopRun trace s) = true → hasEmptyRead trace = true := by
  induction trace with
  | nil => intro s h; simp [loopRun, isReturnedO] at h
  | cons ev rest ih =>
    intro s h
    cases ev with
    | read src data =>
      by_cases hd : data = []
      · subst hd; simp [hasEmptyRead]
      · simp only [loopRun] at h
        rw [if_neg hd] at h
        have htail : hasEmptyRead rest = true := by
          cases src with
          | stdout =>
            cases hp : procLinesS (splitlines data) s with
            | ok s2 => rw [hp] at h; exact ih s2 h
            | error e => rw [hp] at h; simp [isReturnedO] at h
          | stderr =>
            cases hl : logRun s.wst.logLevel (.i ERROR) (Json.str data) with
            | ok pr => rw [hl] at h; exact ih _ h
            | error e => rw [hl] at h; simp [isReturnedO] at h
        simp [hasEmptyRead] at htail ⊢
        exact Or.inr htail

/-- A trace containing a zero-byte read never leaves the loop waiting: the loop
either executes the bare return or dies on an uncaught exception first. -/
theorem loopRun_hasEmpty_not_blocked (trace : List ReadEvent) :
    ∀ s, hasEmptyRead trace = true → isBlockedO (loopRun trace s) = false := by
  induction trace with
  | nil => intro s h; simp [hasEmptyRead] at h
  | cons ev rest ih =>
    intro s h
    cases ev with
    | read src data =>
      by_cases hd : data = []
      · subst hd; simp [loopRun, isBlockedO]
      · have htail : hasEmptyRead rest = true := by
          simp [hasEmptyRead, List.any_cons] at h
          rcases h with h | h
          · exact absurd h hd
          · simpa [hasEmptyRead] using h
        simp only [loopRun]
        rw [if_neg hd]
        cases src with
        | stdout =>
          cases hp : procLinesS (splitlines data) s with
          | ok s2 => exact ih s2 htail
          | error e =>
            obtain ⟨e1, s3⟩ := e
            simp [isBlockedO]
        | stderr =>
          cases hl : logRun s.wst.logLevel (.i ERROR) (Json.str data) with
          | ok pr => exact ih _ htail
          | error e => simp [isBlockedO]

/-- The accumulate-and-parse step never touches the cleanup flags. -/
theorem procLinesS_flags (lines : List (List Char)) :
    ∀ s : LoopState,
      (∀ s2, procLinesS lines s = .ok s2 →
        s2.procWaited = s.procWaited ∧ s2.streamsClosed = s.streamsClosed) ∧
      (∀ e s2, procLinesS lines s = .error (e, s2) →
        s2.procWaited = s.procWaited ∧ s2.streamsClosed = s.streamsClosed) := by
  induction lines with
  | nil =>
    intro s
    refine ⟨fun s2 h => ?_, fun e s2 h => ?_⟩
    · simp [procLinesS] at h
      rw [← h]
      exact ⟨rfl, rfl⟩
    · simp [procLinesS] at h
  | cons line rest ih =>
    intro s
    refine ⟨fun s2 h => ?_, fun e s2 h => ?_⟩
    · rw [procLinesS] at h
      split at h
      · have hf := (ih _).1 s2 h
        exact ⟨hf.1, hf.2⟩
      · split at h
        · have hf := (ih _).1 s2 h
          exact ⟨hf.1, hf.2⟩
        · simp at h
    · rw [procLinesS] at h
      split at h
      · have hf := (ih _).2 e s2 h
        exact ⟨hf.1, hf.2⟩
      · split at h
        · have hf := (ih _).2 e s2 h
          exact ⟨hf.1, hf.2⟩
        · simp at h
          rw [← h.2]
          exact ⟨rfl, rfl⟩

/-- The read loop never touches the cleanup flags either. -/
theorem loopRun_flags (trace : List ReadEvent) :
    ∀ s : LoopState,
      (finSt (loopRun trace s)).procWaited = s.procWaited ∧
      (finSt (loopRun trace s)).streamsClosed = s.streamsClosed := by
  induction trace with
  | nil => intro s; simp [loopRun, finSt]
  | cons ev rest ih =>
    intro s
    cases ev with
    | read src data =>
      by_cases hd : data = []
      · subst hd; simp [loopRun, finSt]
      · simp only [loopRun]
        rw [if_neg hd]
        cases src with
        | stdout =>
          cases hp : procLinesS (splitlines data) s with
          | ok s2 =>
            have hf := (procLinesS_flags (splitlines data) s).1 s2 hp
            have h2 := ih s2
            exact ⟨h2.1.trans hf.1, h2.2.trans hf.2⟩
          | error es =>
            obtain ⟨e, s3⟩ := es
            have hf := (procLinesS_flags (splitlines data) s).2 e s3 hp
            simpa [finSt] using hf
        | stderr =>
          cases hl : logRun s.wst.logLevel (.i ERROR) (Json.str data) with
          | ok pr =>
            have := ih { s with errCalls := s.errCalls ++ [data], prints := s.prints ++ pr }
            simpa using this
          | error e => simp [finSt]

/-- Values of LEVEL_CONVERTER are the five level constants, all nonnegative. -/
theorem levelConv_nonneg (s : List Char) (n : Int) (h : levelConv s = some n) : 0 ≤ n := by
  unfold levelConv at h
  split_ifs at h <;> simp_all [TRACE, DEBUG, INFO, WARN, ERROR] <;> omega

/-- Deleting one key leaves every other lookup unchanged. -/
theorem lookupJ_delFields (fs : List (List Char × Json)) (k k2 : List Char) (h : k2 ≠ k) :
    lookupJ (delFields fs k) k2 = lookupJ fs k2 := by
  induction fs with
  | nil => rfl
  | cons p rest ih =>
    obtain ⟨k3, v⟩ := p
    by_cases hk : k3 = k
    · subst hk
      have hlhs : lookupJ (delFields ((k3, v) :: rest) k3) k2 = lookupJ rest k2 := by
        simp only [delFields, if_pos rfl]
        exact ih
      rw [hlhs, lookupJ]
      cases hl : lookupJ rest k2 with
      | some v2 => rfl
      | none => rw [if_neg (fun he => h (Eq.symm he))]
    · simp only [delFields, if_neg hk, lookupJ, ih]

/-- Claim C3 (amended): when the first read on the output stream returns zero
bytes before any message was decoded, send_payload executes a bare return:
the caller receives None, nothing was dispatched, nothing was logged, and no
error value of any kind exists - there is no UnexpectedClosure SessionError
in the code. -/
theorem c3_closure_plain_return :
    ∀ (lvl : Int) (rest : List ReadEvent),
      sendPayloadModel lvl (ReadEvent.read Src.stdout [] :: rest) =
        .returned (initLoopState lvl) rest := by
  intro lvl rest
  simp [sendPayloadModel, loopRun]

/-- Counterexample for C3 as stated: a worker that closes output immediately
with no bytes makes send_payload return normally with the untouched initial
state - the same bare None return as any other exit, not a
SessionError of kind UnexpectedClosure, which the code cannot produce. -/
theorem c3_closure_returns_none :
    sendPayloadModel INFO [ReadEvent.read Src.stdout []] =
      .returned (initLoopState INFO) [] := rfl

/-- Claim C5 (amended): on no exit path does send_payload reap the worker or
close its output streams: the body contains no Popen.wait, terminate or pipe
close call, so the cleanup flags of the model stay False for every trace;
cleanup is left to the interpreter and garbage collector after return. -/
theorem c5_never_reaps :
    ∀ (lvl : Int) (trace : List ReadEvent),
      (finSt (sendPayloadModel lvl trace)).procWaited = false ∧
      (finSt (sendPayloadModel lvl trace)).streamsClosed = false := by
  intro lvl trace
  have h := loopRun_flags trace (initLoopState lvl)
  simpa [sendPayloadModel, initLoopState] using h

/-- Counterexample for C5 as stated: on the concrete trace that ends the run
(zero-byte read on output), the run has finished and still neither reaped the
worker process nor released its streams. -/
theorem c5_no_reap_concrete :
    (finSt (sendPayloadModel INFO [ReadEvent.read Src.stdout []])).procWaited = false ∧
    (finSt (sendPayloadModel INFO [ReadEvent.read Src.stdout []])).streamsClosed = false :=
  ⟨rfl, rfl⟩

/-- Claim C6: a nonempty diagnostic (stderr) chunk, however chunking fell out,
is never fed to the message parser and never appended to the stdout
accumulator: the loop state keeps its accumulator, Wrapper state and dispatch
list unchanged; the chunk is surfaced verbatim as a self.log call at level
ERROR, and the session continues with the remaining trace. -/
theorem c6_stderr_isolated :
    ∀ (s : LoopState) (data : List Char) (rest : List ReadEvent),
      data ≠ [] →
      loopRun (ReadEvent.read Src.stderr data :: rest) s =
        loopRun rest
          { s with
            errCalls := s.errCalls ++ [data],
            prints := s.prints ++ logOut s.wst.logLevel ERROR (Json.str data) } := by
  intro s data rest hd
  simp [loopRun, hd, logRun]

/-- Witness for C6 at a concrete diagnostic chunk. -/
theorem c6_stderr_isolated_witness :
    loopRun [ReadEvent.read Src.stderr (s2c "boom")] (initLoopState INFO) =
      loopRun []
        { initLoopState INFO with
          errCalls := [s2c "boom"],
          prints := logOut INFO ERROR (Json.str (s2c "boom")) } :=
  c6_stderr_isolated (initLoopState INFO) (s2c "boom") [] (by decide)

/-- Claim C9: a zero-byte read from the diagnostic (stderr) stream ends the
session exactly like output-stream closure: the loop returns on the first
empty read from either stream with identical outcome, abandoning the entire
remaining trace unread. -/
theorem c9_stderr_closure_like_stdout :
    ∀ (s : LoopState) (rest : List ReadEvent),
      loopRun (ReadEvent.read Src.stderr [] :: rest) s = .returned s rest ∧
      loopRun (ReadEvent.read Src.stderr [] :: rest) s =
        loopRun (ReadEvent.read Src.stdout [] :: rest) s := by
  intro s rest
  constructor <;> simp [loopRun]

/-- Claim C10: when quietness exceeds verbosity by more than 2, the computed
log level INFO + verbosity - quietness is below ERROR = 0 and every log call
returns without printing: any nonnegative int level, any level name accepted
by LEVEL_CONVERTER, and in particular the ERROR-level call that the read loop
makes for each worker stderr chunk, which is thereby silently discarded. -/
theorem c10_negative_level_suppresses :
    ∀ (v q : Nat), (v : Int) + 2 < (q : Int) →
      (∀ (n : Int) (t : Json), 0 ≤ n → logRun (INFO + v - q) (.i n) t = .ok []) ∧
      (∀ (s : List Char) (n : Int) (t : Json),
         levelConv (s.map Char.toLower) = some n →
         logRun (INFO + v - q) (.j (Json.str s)) t = .ok []) ∧
      (∀ (data : List Char),
         logRun (INFO + v - q) (.i ERROR) (Json.str data) = .ok []) := by
  intro v q h
  refine ⟨fun n t hn => ?_, fun s n t hc => ?_, fun data => ?_⟩
  · have hgt : n > INFO + (v : Int) - q := by simp only [INFO]; omega
    simp [logRun, logOut, hgt]
  · have hn0 : 0 ≤ n := levelConv_nonneg _ _ hc
    have hgt : n > INFO + (v : Int) - q := by simp only [INFO]; omega
    simp [logRun, hc, logOut, hgt]
  · have hgt : ERROR > INFO + (v : Int) - q := by simp only [INFO, ERROR]; omega
    simp [logRun, logOut, hgt]

/-- Witness for C10 at verbosity 0, quietness 3. -/
theorem c10_negative_level_suppresses_witness :
    ((0 : Nat) : Int) + 2 < ((3 : Nat) : Int) ∧
    logRun (INFO + ((0 : Nat) : Int) - ((3 : Nat) : Int)) (.i ERROR) (Json.str (s2c "worker noise")) = .ok [] :=
  ⟨by norm_num, (c10_negative_level_suppresses 0 3 (by norm_num)).2.2 (s2c "worker noise")⟩

/-- Serialized informational (LogMsg) line of the Ping scenario, in the wire
form this program actually decodes (discriminator key type, kind LogMsg). -/
def scenLogLine : List Char :=
  s2c "\x7b\"type\":\"LogMsg\",\"level\":\"info\",\"message\":\"hi\"\x7d"

/-- Serialized reply line standing for the terminal Pong message of the
scenario, in this wire form. -/
def scenPongLine : List Char := s2c "\x7b\"type\":\"Pong\",\"ok\":true\x7d"

/-- Decoded LogMsg message of the scenario. -/
def scenLogJson : Json :=
  Json.obj [(s2c "type", Json.str (s2c "LogMsg")), (s2c "level", Json.str (s2c "info")),
            (s2c "message", Json.str (s2c "hi"))]

/-- Decoded Pong message of the scenario. -/
def scenPongJson : Json :=
  Json.obj [(s2c "type", Json.str (s2c "Pong")), (s2c "ok", Json.bool true)]

/-- Scenario trace: the two lines arrive across two reads, split inside the
second message, and then the output stream closes. -/
def scenTrace : List ReadEvent :=
  [ReadEvent.read Src.stdout (scenLogLine ++ '\n' :: scenPongLine.take 8),
   ReadEvent.read Src.stdout (scenPongLine.drop 8),
   ReadEvent.read Src.stdout []]

/-- Claim C1 (amended): send_payload never returns a payload or an error
value: the loop executes its bare return (yielding None) exactly on a
zero-byte read - a run that returned did meet one, and a trace containing one
never leaves the loop waiting - and in the Ping scenario both decoded
messages, the Log message and the terminal-style Pong, are each dispatched to
parse_response (one dispatch each) without ending the loop; the payload
value (ok true) inside Pong is never extracted or returned. -/
theorem c1_outcome_unique :
    (∀ (lvl : Int) (trace : List ReadEvent),
       isReturnedO (sendPayloadModel lvl trace) = true → hasEmptyRead trace = true) ∧
    (∀ (lvl : Int) (trace : List ReadEvent),
       hasEmptyRead trace = true → isBlockedO (sendPayloadModel lvl trace) = false) ∧
    sendPayloadModel INFO scenTrace =
      .returned
        { wst := { logLevel := INFO }, acc := [],
          dispatched := [scenLogJson, scenPongJson], errCalls := [],
          prints := [⟨Src.stdout, s2c "[INFO]  hi"⟩, ⟨Src.stdout, []⟩,
                     ⟨Src.stderr, s2c "[ERROR] Response type Pong has not been implemented!"⟩],
          procWaited := false, streamsClosed := false } [] := by
  refine ⟨fun lvl trace => loopRun_returned_hasEmpty trace _,
          fun lvl trace => loopRun_hasEmpty_not_blocked trace _, ?_⟩
  rfl

/-- Witness for C1 at concrete traces. -/
theorem c1_outcome_unique_witness :
    hasEmptyRead [ReadEvent.read Src.stdout []] = true ∧
    isBlockedO (sendPayloadModel INFO [ReadEvent.read Src.stdout []]) = false ∧
    isReturnedO (sendPayloadModel INFO [ReadEvent.read Src.stderr []]) = true ∧
    hasEmptyRead [ReadEvent.read Src.stderr []] = true :=
  ⟨rfl, c1_outcome_unique.2.1 INFO [ReadEvent.read Src.stdout []] rfl,
   rfl, c1_outcome_unique.1 INFO [ReadEvent.read Src.stderr []] rfl⟩

/-- Counterexample for C1 as stated: after the Pong message is decoded and
dispatched the loop does not end - it is still blocked waiting in
selector.select() - and no payload is returned to the caller. -/
theorem c1_terminal_does_not_end_loop :
    sendPayloadModel INFO [ReadEvent.read Src.stdout scenPongLine] =
      .blocked
        { wst := { logLevel := INFO }, acc := [], dispatched := [scenPongJson],
          errCalls := [],
          prints := [⟨Src.stdout, []⟩,
                     ⟨Src.stderr, s2c "[ERROR] Response type Pong has not been implemented!"⟩],
          procWaited := false, streamsClosed := false } := by
  rfl

/-- Counterexample for C2 as stated: a closing brace on the output stream can
never extend to valid JSON, yet no MalformedMessage or any other error is
reported: the decode failure is swallowed, the loop keeps running (it still
processes the following stderr chunk), a later well-formed message is
corrupted by concatenation into the stuck accumulator, and the session just
waits forever. -/
theorem c2_malformed_not_reported :
    sendPayloadModel INFO
      [ReadEvent.read Src.stdout [rbr], ReadEvent.read Src.stderr (s2c "oops"),
       ReadEvent.read Src.stdout [lbr, rbr]] =
      .blocked
        { wst := { logLevel := INFO }, acc := [rbr, lbr, rbr], dispatched := [],
          errCalls := [s2c "oops"],
          prints := [⟨Src.stderr, s2c "[ERROR] oops"⟩],
          procWaited := false, streamsClosed := false } := by
  rfl

/-- Claim C2 (amended): accumulated content headed by a closing brace can
never become valid JSON, and the decoder retries it silently forever: any
number of further nonempty stdout chunks leaves the loop blocked with the
still-growing accumulator, nothing dispatched, and no error of any kind -
the except-pass swallows every JSONDecodeError and no MalformedMessage
exists in the code. -/
theorem c2_malformed_silently_retained :
    (∀ t : List Char, jsonParse (rbr :: t) = none) ∧
    (∀ (chunks : List (List Char)) (s : LoopState) (t : List Char),
       (∀ ch ∈ chunks, ch ≠ []) → s.acc = rbr :: t →
       ∃ t2, loopRun (chunks.map (ReadEvent.read Src.stdout)) s =
         .blocked { s with acc := rbr :: t2 }) :=
  ⟨jsonParse_rbr, fun chunks s t h1 h2 => loopRun_stdout_rbr chunks h1 s t h2⟩

/-- Witness for C2 at a concrete stuck accumulator and chunk. -/
theorem c2_malformed_silently_retained_witness :
    ∃ t2, loopRun [ReadEvent.read Src.stdout [lbr]]
        { initLoopState INFO with acc := [rbr] } =
      .blocked { { initLoopState INFO with acc := [rbr] } with acc := rbr :: t2 } :=
  c2_malformed_silently_retained.2 [[lbr]] { initLoopState INFO with acc := [rbr] } []
    (by decide) rfl

/-- One complete serialized message used in decoder examples. -/
def msgA : List Char := s2c "\x7b\"a\":1\x7d"

/-- Another complete serialized message used in decoder examples. -/
def msgB : List Char := s2c "\x7b\"b\":2\x7d"

/-- Decoded form of msgA. -/
def jsonA : Json := Json.obj [(s2c "a", Json.num 1)]

/-- Decoded form of msgB. -/
def jsonB : Json := Json.obj [(s2c "b", Json.num 2)]

/-- Python splitlines of the empty chunk. -/
theorem splitlines_nil : splitlines [] = [] := rfl

/-- Counterexample for C4 as stated: a single chunk holding two complete
messages back to back with no separator yields no message at all (the
combined parse fails forever and both are lost in the accumulator), while
the same bytes in two chunks decode to both messages - so decoding does
depend on chunking, and a multi-message chunk does not yield every message
it contains. -/
theorem c4_back_to_back_lost :
    decodeChunks [] [msgA ++ msgB] = (msgA ++ msgB, []) ∧
    decodeChunks [] [msgA, msgB] = ([], [jsonA, jsonB]) :=
  ⟨rfl, rfl⟩

/-- Claim C4 (amended): for a message with no line-break characters none of
whose proper nonempty prefixes parses, decoding is invariant under splitting
into two chunks at every byte boundary, and equals decoding the single
chunk; two complete messages in one chunk are both decoded when - and, by
the counterexample, only when - a newline separates them. -/
theorem c4_split_invariance :
    (∀ (msg : List Char) (j : Json),
       jsonParse msg = some j →
       (∀ c ∈ msg, c ≠ '\n' ∧ c ≠ '\r') →
       (∀ k, k < msg.length → 0 < k → (jsonParse (msg.take k)).isNone = true) →
       decodeChunks [] [msg] = ([], [j]) ∧
       ∀ i, i ≤ msg.length →
         decodeChunks [] [msg.take i, msg.drop i] = ([], [j])) ∧
    (∀ (m1 m2 : List Char) (j1 j2 : Json),
       jsonParse m1 = some j1 → jsonParse m2 = some j2 →
       (∀ c ∈ m1, c ≠ '\n' ∧ c ≠ '\r') → (∀ c ∈ m2, c ≠ '\n' ∧ c ≠ '\r') →
       decodeChunks [] [m1 ++ '\n' :: m2] = ([], [j1, j2])) := by
  constructor
  · intro msg j hp hnb hpfx
    have hne : msg ≠ [] := by
      intro he
      rw [he, jsonParse_nil] at hp
      exact Option.noConfusion hp
    have hsl : splitlines msg = [msg] := splitlines_no_break msg hne hnb
    have hone : decodeChunks [] [msg] = ([], [j]) := by
      simp [decodeChunks, hsl, procLines, hp]
    refine ⟨hone, fun i hi => ?_⟩
    by_cases h0 : i = 0
    · subst h0
      simp [decodeChunks, splitlines_nil, hsl, procLines, hp]
    · by_cases hL : i = msg.length
      · subst hL
        simp [decodeChunks, List.take_length, List.drop_length, hsl, splitlines_nil, procLines, hp]
      · have hlt : i < msg.length := lt_of_le_of_ne hi hL
        have hpos : 0 < i := Nat.pos_of_ne_zero h0
        have htne : msg.take i ≠ [] := by
          intro he
          rcases List.take_eq_nil_iff.mp he with h | h
          · exact absurd h h0
          · exact absurd h hne
        have hdne : msg.drop i ≠ [] := by
          intro he
          have := List.drop_eq_nil_iff.mp he
          omega
        have hnb1 : ∀ c ∈ msg.take i, c ≠ '\n' ∧ c ≠ '\r' :=
          fun c hc => hnb c (List.take_subset i msg hc)
        have hnb2 : ∀ c ∈ msg.drop i, c ≠ '\n' ∧ c ≠ '\r' :=
          fun c hc => hnb c (List.drop_subset i msg hc)
        have hsl1 := splitlines_no_break _ htne hnb1
        have hsl2 := splitlines_no_break _ hdne hnb2
        have hpf : jsonParse (msg.take i) = none :=
          Option.isNone_iff_eq_none.mp (hpfx i hlt hpos)
        have hfull : jsonParse (msg.take i ++ msg.drop i) = some j := by
          rw [List.take_append_drop]
          exact hp
        simp [decodeChunks, hsl1, hsl2, procLines, hpf, hfull, hp]
  · intro m1 m2 j1 j2 h1 h2 hnb1 hnb2
    have hne2 : m2 ≠ [] := by
      intro he
      rw [he, jsonParse_nil] at h2
      exact Option.noConfusion h2
    have hsl := splitlines_pair m1 m2 hnb1 hne2 hnb2
    simp [decodeChunks, hsl, procLines, h1, h2]

/-- Witness for C4: a concrete message split at byte 3, and a concrete
newline-separated pair. -/
theorem c4_split_invariance_witness :
    (decodeChunks [] [msgA] = ([], [jsonA]) ∧
     decodeChunks [] [msgA.take 3, msgA.drop 3] = ([], [jsonA])) ∧
    decodeChunks [] [msgA ++ '\n' :: msgB] = ([], [jsonA, jsonB]) :=
  ⟨by
     have h := c4_split_invariance.1 msgA jsonA rfl (by decide) (by decide)
     exact ⟨h.1, h.2 3 (by decide)⟩,
   c4_split_invariance.2 msgA msgB jsonA jsonB rfl rfl (by decide) (by decide)⟩

/-- Claim C7: lifecycle of the output accumulator combined_stdout: it starts
empty at session start; a line whose combined parse fails is appended with no
error and nothing dispatched; a line whose combined parse succeeds and whose
dispatch returns resets the accumulator to empty, with the message appended
to the dispatch list; and a run that left the accumulator empty on nonempty
content did decode a message from it.  The accumulator is a local of
send_payload: each run is a pure function of its own trace starting from this
empty state, so nothing is shared across sessions. -/
theorem c7_accumulator_lifecycle :
    (∀ lvl : Int, (initLoopState lvl).acc = []) ∧
    (∀ (s : LoopState) (line : List Char),
       jsonParse (s.acc ++ line) = none →
       procLinesS [line] s = .ok { s with acc := s.acc ++ line }) ∧
    (∀ (s : LoopState) (line : List Char) (j : Json) (w2 : WrapperState) (pr : List Printed),
       jsonParse (s.acc ++ line) = some j →
       parseResponse s.wst j = .ok (w2, pr) →
       procLinesS [line] s =
         .ok
           { s with
             wst := w2,
             acc := [],
             dispatched := s.dispatched ++ [j],
             prints := s.prints ++ pr }) ∧
    (∀ (s : LoopState) (line : List Char) (s2 : LoopState),
       s.acc ++ line ≠ [] →
       procLinesS [line] s = .ok s2 → s2.acc = [] →
       ∃ j, jsonParse (s.acc ++ line) = some j) := by
  refine ⟨fun lvl => rfl, fun s line h => ?_, fun s line j w2 pr h1 h2 => ?_,
          fun s line s2 hne h1 h2 => ?_⟩
  · simp [procLinesS, h]
  · simp [procLinesS, h1, h2]
  · rw [procLinesS] at h1
    split at h1
    · simp only [procLinesS, Except.ok.injEq] at h1
      have hcontra : s.acc ++ line = [] := by
        rw [← h2, ← h1]
      exact absurd hcontra hne
    · exact ⟨_, by assumption⟩

/-- Witness for C7 on an incomplete line and on a complete LogMsg line. -/
theorem c7_accumulator_lifecycle_witness :
    (initLoopState INFO).acc = [] ∧
    procLinesS [[lbr]] (initLoopState INFO) = .ok { initLoopState INFO with acc := [lbr] } ∧
    procLinesS [scenLogLine] (initLoopState INFO) =
      .ok
        { initLoopState INFO with
          acc := [],
          dispatched := [scenLogJson],
          prints := [⟨Src.stdout, s2c "[INFO]  hi"⟩] } ∧
    ∃ j, jsonParse ((initLoopState INFO).acc ++ scenLogLine) = some j := by
  refine ⟨c7_accumulator_lifecycle.1 INFO, ?_, ?_, ?_⟩
  · exact c7_accumulator_lifecycle.2.1 (initLoopState INFO) [lbr] rfl
  · exact c7_accumulator_lifecycle.2.2.1 (initLoopState INFO) scenLogLine scenLogJson
      { logLevel := INFO } [⟨Src.stdout, s2c "[INFO]  hi"⟩] rfl rfl
  · exact c7_accumulator_lifecycle.2.2.2 (initLoopState INFO) scenLogLine
      { initLoopState INFO with
        acc := [],
        dispatched := [scenLogJson],
        prints := [⟨Src.stdout, s2c "[INFO]  hi"⟩] }
      (by decide) rfl rfl

/-- Complete ModStatus response carrying the core_mods key. -/
def msGoodResp : Json :=
  Json.obj
    [(s2c "type", Json.str (s2c "ModStatus")),
     (s2c "app_info", Json.obj
        [(s2c "loader_installed", Json.bool true), (s2c "obb_present", Json.bool true),
         (s2c "version", Json.str (s2c "1.0")), (s2c "manifest_xml", Json.str (s2c "<m/>"))]),
     (s2c "installed_mods", Json.arr []),
     (s2c "core_mods", Json.obj
        [(s2c "core_mod_install_status", Json.str (s2c "Ready")),
         (s2c "supported_versions", Json.arr []), (s2c "downgrade_versions", Json.arr []),
         (s2c "is_awaiting_diff", Json.bool false)])]

/-- Claim C8: parse_response on a ModStatus response that lacks the core_mods
key raises KeyError at the access response[core_mods][is_awaiting_diff],
which sits outside the guarded core_mods block (here shown for every such
response whose other fields pass the earlier accesses: any extra fields, an
empty installed-mods list, no app_info block); with core_mods present the
same shape of response is handled to completion. -/
theorem c8_modstatus_keyerror :
    (∀ (fields : List (List Char × Json)) (w : WrapperState),
       lookupJ fields (s2c "type") = some (Json.str (s2c "ModStatus")) →
       lookupJ fields (s2c "core_mods") = none →
       lookupJ fields (s2c "app_info") = none →
       lookupJ fields (s2c "installed_mods") = some (Json.arr []) →
       parseResponse w (Json.obj fields) = .error (.keyError (s2c "core_mods"))) ∧
    (∃ pr, parseResponse { logLevel := INFO } msGoodResp =
       .ok ({ logLevel := INFO, modStatus := some (delK msGoodResp (s2c "type")) }, pr)) := by
  constructor
  · intro fields w h1 h2 h3 h4
    have htm : (s2c "core_mods" : List Char) ≠ s2c "type" := by decide
    have ham : (s2c "app_info" : List Char) ≠ s2c "type" := by decide
    have him : (s2c "installed_mods" : List Char) ≠ s2c "type" := by decide
    have e2 : lookupJ (delFields fields (s2c "type")) (s2c "core_mods") = none := by
      rw [lookupJ_delFields fields _ _ htm]
      exact h2
    have e3 : lookupJ (delFields fields (s2c "type")) (s2c "app_info") = none := by
      rw [lookupJ_delFields fields _ _ ham]
      exact h3
    have e4 : lookupJ (delFields fields (s2c "type")) (s2c "installed_mods") = some (Json.arr []) := by
      rw [lookupJ_delFields fields _ _ him]
      exact h4
    have j1 : jEqS (Json.str (s2c "ModStatus")) "LogMsg" = false := by decide
    have j2 : jEqS (Json.str (s2c "ModStatus")) "ModStatus" = true := by decide
    simp [parseResponse, getK, h1, j1, j2, delK, modStatusBranch, hasK, e2, e3, e4,
          asList, logMods, Bind.bind, Except.bind, pure, Except.pure]
  · exact ⟨_, rfl⟩

/-- Witness for C8 on a concrete ModStatus response lacking core_mods. -/
theorem c8_modstatus_keyerror_witness :
    parseResponse { logLevel := INFO }
      (Json.obj [(s2c "type", Json.str (s2c "ModStatus")), (s2c "installed_mods", Json.arr [])]) =
      .error (.keyError (s2c "core_mods")) :=
  c8_modstatus_keyerror.1
    [(s2c "type", Json.str (s2c "ModStatus")), (s2c "installed_mods", Json.arr [])]
    { logLevel := INFO } rfl rfl rfl rfl
